import Mathlib

/-!
Shallow embedding of `src/download_step1a_scraper.py` — the resilient paginated
acquisition engine (session bootstrap, retried page fetches, pagination loop,
row normalization, dataset write) — together with proofs settling the
specification claims about it.

Modelling conventions:
* JSON values are the inductive `Value`; Python floats are opaque tokens
  (`Value.vfloat`), since no claim inspects float arithmetic.
* A fetched record (`Row`) is an association list from field name to `Value`,
  mirroring a Python dict (unique keys, insertion order).
* Fallible operations return `Except`; an attempt schedule is a function from
  the 1-based attempt number to that attempt's outcome.
* Machine integers are `Nat`; `math.ceil(F / float(L))` is embedded as the
  exact natural ceiling `(F + L - 1) / L`, which agrees with the float
  computation for all realistically sized counts.
* Sleeps are recorded as the exponent `k - 1` of the backoff power
  `RETRY_BACKOFF ^ (k - 1)` slept after a failed attempt `k`.
-/

/-- Configuration constant `PAGE_LENGTH` from the source. -/
def PAGE_LENGTH : Nat := 10000

/-- Configuration constant `MAX_RETRIES` from the source. -/
def MAX_RETRIES : Nat := 4

/-- Configuration constant `RETRY_BACKOFF` (the float `2.0`), as a rational. -/
def RETRY_BACKOFF : ℚ := 2

/-- The delay slept after a failed attempt whose sleep exponent is `e`:
`RETRY_BACKOFF ** e` from the source (`time.sleep(RETRY_BACKOFF ** (attempt - 1))`). -/
def backoffDelay (e : Nat) : ℚ := RETRY_BACKOFF ^ e

/-- A JSON value as returned by the remote endpoint.  Floats are opaque. -/
inductive Value where
  | vnull : Value
  | vbool : Bool → Value
  | vint : Int → Value
  | vfloat : Nat → Value
  | vstr : String → Value
  | vlist : List Value → Value
  | vobj : List (String × Value) → Value

/-- Whether a value is Python `None` / JSON null. -/
def Value.isNull : Value → Bool
  | .vnull => true
  | _ => false

/-- The test `isinstance(v, (str, int, float, bool))` from `normalize_rows`. -/
def isPyScalar : Value → Bool
  | .vstr _ => true
  | .vint _ => true
  | .vfloat _ => true
  | .vbool _ => true
  | _ => false

/-- One escaped character of a JSON string literal. -/
def jsonEscapeChar (c : Char) : String :=
  if c = '"' then "\\\""
  else if c = '\\' then "\\\\"
  else if c = '\n' then "\\n"
  else if c = '\t' then "\\t"
  else if c = '\r' then "\\r"
  else String.singleton c

/-- Escape the characters of a JSON string body (`ensure_ascii=False` keeps
non-ASCII characters verbatim). -/
def jsonEscape (s : String) : String :=
  String.join (s.data.map jsonEscapeChar)

mutual

/-- Embedding of `json.dumps(v, ensure_ascii=False)`: the canonical compact text
serialization of a JSON value (Python's default separators). -/
def jsonDumps : Value → String
  | .vnull => "null"
  | .vbool b => if b then "true" else "false"
  | .vint n => toString n
  | .vfloat _ => "float"
  | .vstr s => "\"" ++ jsonEscape s ++ "\""
  | .vlist xs => "[" ++ jsonDumpsList xs ++ "]"
  | .vobj fs => "\x7b" ++ jsonDumpsObj fs ++ "\x7d"

/-- Comma-separated serialization of a JSON array body. -/
def jsonDumpsList : List Value → String
  | [] => ""
  | [v] => jsonDumps v
  | v :: w :: rest => jsonDumps v ++ ", " ++ jsonDumpsList (w :: rest)

/-- Comma-separated serialization of a JSON object body. -/
def jsonDumpsObj : List (String × Value) → String
  | [] => ""
  | [p] => "\"" ++ jsonEscape p.1 ++ "\": " ++ jsonDumps p.2
  | p :: q :: rest =>
      "\"" ++ jsonEscape p.1 ++ "\": " ++ jsonDumps p.2 ++ ", " ++ jsonDumpsObj (q :: rest)

end

/-- A fetched record: a Python dict from field name to value. -/
abbrev Row : Type := List (String × Value)

/-- Embedding of `row.get(k)`: the value of the first entry with key `k`, if any. -/
def rowGet : Row → String → Option Value
  | [], _ => none
  | p :: rest, k => if p.1 = k then some p.2 else rowGet rest k

/-- Embedding of `row[k] = v`: replace the entry with key `k` in place, or append it. -/
def rowSet : Row → String → Value → Row
  | [], k, v => [(k, v)]
  | p :: rest, k, v => if p.1 = k then (k, v) :: rest else p :: rowSet rest k v

/-- The body of the `for row in rows` loop of `normalize_rows`, applied to one
non-empty record: JSON-encode the `Contractors` field when it is present,
non-null and not a scalar; leave everything else untouched.  (The source's
`except` fallback `str(contractors)` is unreachable here because `jsonDumps`
is total on `Value`: every value parsed from a JSON response is serializable.) -/
def normalizeRow (row : Row) : Row :=
  let contractors := (rowGet row "Contractors").getD Value.vnull
  if !contractors.isNull && !isPyScalar contractors then
    rowSet row "Contractors" (Value.vstr (jsonDumps contractors))
  else
    row

/-- Embedding of `normalize_rows` from the source: drop falsy (empty) records, normalize
the rest. -/
def normalize_rows : List Row → List Row
  | [] => []
  | row :: rest =>
      if row.isEmpty then normalize_rows rest
      else normalizeRow row :: normalize_rows rest

/-- Whether every field of every record holds a scalar (or null) value. -/
def allScalarRows (rows : List Row) : Bool :=
  rows.all fun r => r.all fun p => isPyScalar p.2 || p.2.isNull

/-- Python `str.strip`'s whitespace test, for the ASCII whitespace characters. -/
def pyIsSpace (c : Char) : Bool :=
  c = ' ' || c = '\t' || c = '\n' || c = '\r' || c = '\x0b' || c = '\x0c'

/-- Python `s.strip()` on a character list: drop whitespace from both ends. -/
def pyStrip (s : List Char) : List Char :=
  ((s.dropWhile pyIsSpace).reverse.dropWhile pyIsSpace).reverse

/-- Split at the first `'/'`: `some (before, after)` when a slash occurs,
`none` otherwise.  This is `s.split("/", 1)` restricted to its two shapes. -/
def splitFirstSlash : List Char → Option (List Char × List Char)
  | [] => none
  | c :: rest =>
      if c = '/' then some ([], rest)
      else
        match splitFirstSlash rest with
        | none => none
        | some (a, b) => some (c :: a, b)

/-- Python `part.zfill(2)`: left-pad with `'0'` to width 2, keeping a leading
sign character in front of the padding. -/
def zfill2 (l : List Char) : List Char :=
  if 2 ≤ l.length then l
  else
    match l with
    | [] => List.replicate 2 '0'
    | c :: rest =>
        if c = '+' || c = '-' then c :: (List.replicate (2 - l.length) '0' ++ rest)
        else List.replicate (2 - l.length) '0' ++ l

/-- Embedding of `_build_date(ddmm, year)` from the source: strip, split once on `'/'`,
raise `ValueError` unless exactly two parts result, zero-pad both and render
`dd/mm/year`. -/
def _build_date (ddmm : List Char) (year : Nat) : Except String (List Char) :=
  match splitFirstSlash (pyStrip ddmm) with
  | none => .error "Expected DD/MM format"
  | some (d, m) =>
      .ok (zfill2 d ++ '/' :: zfill2 m ++ '/' :: (toString year).data)

/-- One page response of the data endpoint: `recordsTotal`, `recordsFiltered`
(both possibly absent) and the `data` row list. -/
structure Response where
  recordsTotal : Option Nat
  recordsFiltered : Option Nat
  data : List Row

/-- Embedding of `records_total = resp_json.get("recordsTotal") or 0` (Python `or`:
a missing or zero value yields `0`). -/
def recordsTotalOf (r : Response) : Nat :=
  r.recordsTotal.getD 0

/-- Embedding of `records_filtered = resp_json.get("recordsFiltered") or records_total`
(Python `or`: a missing, null or zero value falls back to `records_total`). -/
def recordsFilteredOf (r : Response) : Nat :=
  match r.recordsFiltered with
  | some v => if v = 0 then recordsTotalOf r else v
  | none => recordsTotalOf r

/-- Embedding of `total_pages = max(1, math.ceil(records_filtered / float(length)))`,
with the ceiling taken exactly over the naturals. -/
def totalPagesOf (F L : Nat) : Nat :=
  max 1 ((F + L - 1) / L)

/-- The observable trace of one retried page-fetch operation: how many POST
attempts ran, the sleep exponents between attempts (chronological; the delay
slept is `backoffDelay` of the exponent), the outcomes of the session-refresh
attempts interleaved between failures (empty when no refresh happens), and
the final result (`ok` response, or the last attempt's error re-raised). -/
structure FetchTrace (E : Type) where
  attemptsMade : Nat
  sleeps : List Nat
  refreshResults : List Bool
  result : Except E Response

/-- The first-page retry loop (source lines 196-204): attempt, and on failure
either re-raise (no budget left) or sleep `RETRY_BACKOFF ** (attempt - 1)` and
retry.  No session refresh happens here.  `attempt` is the 1-based attempt
number, `remaining` the number of attempts still allowed after it. -/
def firstPageRetryAux {E : Type} (f : Nat → Except E Response) :
    Nat → Nat → FetchTrace E
  | attempt, 0 =>
      match f attempt with
      | .ok resp => ⟨1, [], [], .ok resp⟩
      | .error e => ⟨1, [], [], .error e⟩
  | attempt, r + 1 =>
      match f attempt with
      | .ok resp => ⟨1, [], [], .ok resp⟩
      | .error _ =>
          let t := firstPageRetryAux f (attempt + 1) r
          ⟨t.attemptsMade + 1, (attempt - 1) :: t.sleeps, t.refreshResults, t.result⟩

/-- The first-page fetch with the full `MAX_RETRIES` attempt budget. -/
def firstPageRetry {E : Type} (f : Nat → Except E Response) : FetchTrace E :=
  firstPageRetryAux f 1 (MAX_RETRIES - 1)

/-- The subsequent-page retry loop (source lines 226-259): attempt, and on
failure either re-raise (budget exhausted) or refresh the session via the
browser — recording only the refresh outcome `g attempt`, because a refresh
failure is merely printed — then sleep and retry. -/
def loopPageRetryAux {E : Type} (f : Nat → Except E Response) (g : Nat → Bool) :
    Nat → Nat → FetchTrace E
  | attempt, 0 =>
      match f attempt with
      | .ok resp => ⟨1, [], [], .ok resp⟩
      | .error e => ⟨1, [], [], .error e⟩
  | attempt, r + 1 =>
      match f attempt with
      | .ok resp => ⟨1, [], [], .ok resp⟩
      | .error _ =>
          let t := loopPageRetryAux f g (attempt + 1) r
          ⟨t.attemptsMade + 1, (attempt - 1) :: t.sleeps, g attempt :: t.refreshResults, t.result⟩

/-- A subsequent-page fetch with the full `MAX_RETRIES` attempt budget. -/
def loopPageRetry {E : Type} (f : Nat → Except E Response) (g : Nat → Bool) : FetchTrace E :=
  loopPageRetryAux f g 1 (MAX_RETRIES - 1)

/-- The final result of the retried fetch of loop page `idx`, under attempt
schedule `fetch` and refresh-outcome schedule `g`. -/
def loopRespOf {E : Type} (fetch : Nat → Nat → Except E Response)
    (g : Nat → Nat → Bool) (idx : Nat) : Except E Response :=
  (loopPageRetry (fetch idx) (g idx)).result

/-- Whether the retried fetch of loop page `idx` succeeds and returns fewer
than `L` rows (the end-of-results signal checked by the loop). -/
def pageShortB {E : Type} (L : Nat) (fetch : Nat → Nat → Except E Response)
    (g : Nat → Nat → Bool) (idx : Nat) : Bool :=
  match loopRespOf fetch g idx with
  | .ok r => r.data.length < L
  | .error _ => false

/-- Embedding of `observed_keys.update(item.keys())` for one record, keeping first-seen
order (only membership and emptiness of the set matter to the program). -/
def addKeysRow (acc : List String) (r : Row) : List String :=
  r.foldl (fun a p => if a.contains p.1 then a else a ++ [p.1]) acc

/-- Embedding of `observed_keys.update(item.keys())` folded over a list of records. -/
def addKeys (acc : List String) (rows : List Row) : List String :=
  rows.foldl addKeysRow acc

/-- The accumulating state of the harvest: collected normalized rows, the set
of observed keys, the page requests issued so far as `(draw, start)` pairs,
and the raw row count of each successfully fetched page. -/
structure RunState where
  rows : List Row
  observedKeys : List String
  requests : List (Nat × Nat)
  pageRowCounts : List Nat

/-- The subsequent-pages loop (source lines 221-264) over the remaining page
indices: for each index, build the payload `(draw = idx + 1, start = idx * L)`,
fetch it through the retry loop, on success normalize and accumulate the rows
and stop if the page returned fewer than `L` rows; on retry exhaustion abort
with the error. -/
def pageLoopAux {E : Type} (L : Nat) (fetch : Nat → Nat → Except E Response)
    (g : Nat → Nat → Bool) : List Nat → RunState → RunState × Option E
  | [], st => (st, none)
  | idx :: rest, st =>
      let st1 : RunState := { st with requests := st.requests ++ [(idx + 1, idx * L)] }
      match loopRespOf fetch g idx with
      | .error e => (st1, some e)
      | .ok resp =>
          let nr := normalize_rows resp.data
          let st2 : RunState :=
            { st1 with
              rows := st1.rows ++ nr
              observedKeys := addKeys st1.observedKeys nr
              pageRowCounts := st1.pageRowCounts ++ [resp.data.length] }
          if resp.data.length < L then (st2, none)
          else pageLoopAux L fetch g rest st2

/-- The non-null, non-empty `"data"` descriptors of `COLUMNS_PAYLOAD`
(`[col["data"] for col in COLUMNS_PAYLOAD if isinstance(col["data"], str) and col["data"]]`). -/
def COLUMNS_PAYLOAD_data : List (Option String) :=
  [none, some "ContractNumber", some "Contractors", some "DateOfGrant",
   some "EffectiveDateFrom", some "EffectiveDateTo", some "AmountToPay",
   some "Service", some "EntityId", some "CancellationDate", none]

/-- The fallback column names derived from the request payload. -/
def fallback_keys : List String :=
  (COLUMNS_PAYLOAD_data.filterMap id).filter (fun s => s ≠ "")

/-- Insert a string into an ascending list (Python `sorted` is ascending). -/
def insertStr (s : String) : List String → List String
  | [] => [s]
  | t :: ts =>
      match compare s t with
      | .gt => t :: insertStr s ts
      | _ => s :: t :: ts

/-- Embedding of `sorted(keys)`: ascending insertion sort. -/
def sortStrings (l : List String) : List String :=
  l.foldr insertStr []

/-- Deduplicate while keeping first occurrences (set semantics of
`observed_keys.update(fallback_keys)`). -/
def dedupKeys (l : List String) : List String :=
  l.foldl (fun a s => if a.contains s then a else a ++ [s]) []

/-- The column set of a zero-row dataset (source lines 272-277): fall back to
the payload's field names when no key was observed, then to the single
sentinel column `"__empty__"`, and sort. -/
def emptyColumns (observed fallback : List String) : List String :=
  let o1 := if observed.isEmpty then dedupKeys fallback else observed
  let o2 := if o1.isEmpty then ["__empty__"] else o1
  sortStrings o2

/-- The union column set of a non-empty dataset (`pa.Table.from_pylist`). -/
def unionKeys (rows : List Row) : List String :=
  addKeys [] rows

/-- The observable trace of one whole harvest run: the planned page count, the
filtered count used for planning, the issued page requests as
`(draw, start)`, the raw row count of every successfully fetched page, the
accumulated normalized rows, the fatal error if one aborted the run, and the
column set of the written Parquet file (`none` when no file was written). -/
structure RunTrace (E : Type) where
  plannedPages : Nat
  recordsFilteredUsed : Nat
  requests : List (Nat × Nat)
  pageRowCounts : List Nat
  rows : List Row
  observedKeys : List String
  error : Option E
  written : Option (List String)

/-- The accumulator state after the first page succeeded with response
`resp0`: its rows normalized and collected, its keys observed, its request
`(draw = 1, start = 0)` and raw row count recorded. -/
def st0Of (resp0 : Response) : RunState :=
  { rows := normalize_rows resp0.data
    observedKeys := addKeys [] (normalize_rows resp0.data)
    requests := [(1, 0)]
    pageRowCounts := [resp0.data.length] }

/-- The part of `run_t` following a successful first page: derive
`records_filtered` and `total_pages`, walk the remaining pages, and on
success write the dataset — the union schema when rows were collected, the
fallback schema otherwise.  On a loop error nothing is written. -/
def runTFromFirst {E : Type} (L : Nat) (fetch : Nat → Nat → Except E Response)
    (g : Nat → Nat → Bool) (resp0 : Response) : RunTrace E :=
  let tp := totalPagesOf (recordsFilteredOf resp0) L
  let res := pageLoopAux L fetch g (List.range' 1 (tp - 1)) (st0Of resp0)
  { plannedPages := tp
    recordsFilteredUsed := recordsFilteredOf resp0
    requests := res.1.requests
    pageRowCounts := res.1.pageRowCounts
    rows := res.1.rows
    observedKeys := res.1.observedKeys
    error := res.2
    written :=
      match res.2 with
      | some _ => none
      | none => some (if res.1.rows.isEmpty then
            emptyColumns res.1.observedKeys fallback_keys
          else unionKeys res.1.rows) }

/-- Embedding of `run_t` (source lines 174-293), with the browser, pacing sleeps and the
actual Parquet serialization abstracted away: fetch the first page through
the retry loop (`draw = 1`, `start = 0`) and, if it succeeds, continue with
`runTFromFirst`.  A fatal error propagates and nothing is written. -/
def runT {E : Type} (L : Nat) (fetch : Nat → Nat → Except E Response)
    (g : Nat → Nat → Bool) : RunTrace E :=
  match (firstPageRetry (fetch 0)).result with
  | .error e =>
      { plannedPages := 0, recordsFilteredUsed := 0, requests := [(1, 0)],
        pageRowCounts := [], rows := [], observedKeys := [],
        error := some e, written := none }
  | .ok resp0 => runTFromFirst L fetch g resp0

/-! ### Lemmas about the date builder -/

/-- A successful `splitFirstSlash` decomposes the input at its first slash. -/
theorem splitFirstSlash_sound : ∀ {l a b : List Char},
    splitFirstSlash l = some (a, b) → l = a ++ '/' :: b ∧ '/' ∉ a := by
  intro l
  induction l with
  | nil => intro a b h; simp [splitFirstSlash] at h
  | cons c rest ih =>
      intro a b h
      by_cases hc : c = '/'
      · subst hc
        simp only [splitFirstSlash, if_pos rfl, Option.some.injEq, Prod.mk.injEq] at h
        obtain ⟨rfl, rfl⟩ := h
        simp
      · simp only [splitFirstSlash, if_neg hc] at h
        cases hs : splitFirstSlash rest with
        | none => rw [hs] at h; cases h
        | some p =>
            obtain ⟨a2, b2⟩ := p
            rw [hs] at h
            simp only [Option.some.injEq, Prod.mk.injEq] at h
            obtain ⟨rfl, rfl⟩ := h
            obtain ⟨hrest, hmem⟩ := ih hs
            constructor
            · rw [hrest]; simp
            · intro hm
              rcases List.mem_cons.mp hm with h1 | h1
              · exact hc h1.symm
              · exact hmem h1

/-- Function `splitFirstSlash` returns `none` exactly when the input has no slash. -/
theorem splitFirstSlash_eq_none {l : List Char} :
    splitFirstSlash l = none ↔ '/' ∉ l := by
  induction l with
  | nil => simp [splitFirstSlash]
  | cons c rest ih =>
      by_cases hc : c = '/'
      · subst hc; simp [splitFirstSlash]
      · simp only [splitFirstSlash, if_neg hc, List.mem_cons]
        cases hs : splitFirstSlash rest with
        | none =>
            have hnr : '/' ∉ rest := ih.mp hs
            simp [hnr, hc, eq_comm]
        | some p =>
            obtain ⟨a, b⟩ := p
            have hdec := splitFirstSlash_sound hs
            have hin : '/' ∈ rest := by rw [hdec.1]; simp
            simp [hin]

/-- Function `zfill2` always produces at least two characters. -/
theorem zfill2_length (l : List Char) : 2 ≤ (zfill2 l).length := by
  unfold zfill2
  by_cases h : 2 ≤ l.length
  · rw [if_pos h]; exact h
  · rw [if_neg h]
    cases l with
    | nil => simp
    | cons c rest =>
        have hr : rest = [] := by
          cases rest with
          | nil => rfl
          | cons d ds => exact absurd (by simp) h
        subst hr
        by_cases hs : c = '+' || c = '-'
        · simp [hs]
        · simp [hs]

/-- Claim C10: the date builder fails (raising `ValueError`) exactly when the
trimmed input contains no `'/'`; when a slash is present it splits at the
first slash, zero-pads both parts to at least two characters, and renders
`dd/mm/<year>`. -/
theorem C10_build_date_spec (s : List Char) (y : Nat) :
    ((∃ e, _build_date s y = .error e) ↔ '/' ∉ pyStrip s) ∧
    ('/' ∈ pyStrip s →
      ∃ d m, pyStrip s = d ++ '/' :: m ∧ '/' ∉ d ∧
        _build_date s y = .ok (zfill2 d ++ '/' :: zfill2 m ++ '/' :: (toString y).data) ∧
        2 ≤ (zfill2 d).length ∧ 2 ≤ (zfill2 m).length) := by
  constructor
  · constructor
    · rintro ⟨e, he⟩
      unfold _build_date at he
      cases hs : splitFirstSlash (pyStrip s) with
      | none => exact splitFirstSlash_eq_none.mp hs
      | some p => obtain ⟨a, b⟩ := p; rw [hs] at he; cases he
    · intro h
      have hs : splitFirstSlash (pyStrip s) = none := splitFirstSlash_eq_none.mpr h
      exact ⟨"Expected DD/MM format", by unfold _build_date; rw [hs]⟩
  · intro h
    cases hs : splitFirstSlash (pyStrip s) with
    | none => exact absurd h (splitFirstSlash_eq_none.mp hs)
    | some p =>
        obtain ⟨d, m⟩ := p
        obtain ⟨hdec, hmem⟩ := splitFirstSlash_sound hs
        exact ⟨d, m, hdec, hmem, by unfold _build_date; rw [hs], zfill2_length d, zfill2_length m⟩

/-- Witness for C10 at the concrete input `"1/2"`, year 2024. -/
theorem C10_build_date_spec_witness :
    ∃ d m, pyStrip "1/2".data = d ++ '/' :: m ∧ '/' ∉ d ∧
      _build_date "1/2".data 2024 =
        .ok (zfill2 d ++ '/' :: zfill2 m ++ '/' :: (toString 2024).data) ∧
      2 ≤ (zfill2 d).length ∧ 2 ≤ (zfill2 m).length :=
  (C10_build_date_spec "1/2".data 2024).2 (by decide)

/-! ### Lemmas about row normalization -/

/-- Setting a key makes it readable. -/
theorem rowGet_rowSet_self (r : Row) (k : String) (v : Value) :
    rowGet (rowSet r k v) k = some v := by
  induction r with
  | nil => simp [rowSet, rowGet]
  | cons p rest ih =>
      by_cases h : p.1 = k
      · simp [rowSet, h, rowGet]
      · simp [rowSet, h, rowGet, ih]

/-- Setting one key leaves every other key unchanged. -/
theorem rowGet_rowSet_ne (r : Row) (k k2 : String) (v : Value) (h : k2 ≠ k) :
    rowGet (rowSet r k2 v) k = rowGet r k := by
  induction r with
  | nil => simp [rowSet, rowGet, h]
  | cons p rest ih =>
      by_cases hp : p.1 = k2
      · simp [rowSet, hp, rowGet, h]
      · simp only [rowSet, if_neg hp, rowGet]
        by_cases hk : p.1 = k
        · simp [hk]
        · simp [hk, ih]

/-- Claim C5 (amended): `normalize_rows` is total, drops empty records and
maps `normalizeRow` over the rest; `normalizeRow` touches only the
`Contractors` field, leaving every other field — scalar or not — unchanged;
and whatever it leaves under `Contractors` is a scalar or null. -/
theorem C5_normalize_amended (rows : List Row) (row : Row) (k : String) :
    normalize_rows rows = (rows.filter (fun r => !r.isEmpty)).map normalizeRow ∧
    (k ≠ "Contractors" → rowGet (normalizeRow row) k = rowGet row k) ∧
    (∀ v, rowGet (normalizeRow row) "Contractors" = some v →
      isPyScalar v = true ∨ v.isNull = true) := by
  refine ⟨?_, ?_, ?_⟩
  · induction rows with
    | nil => simp [normalize_rows]
    | cons r rest ih =>
        by_cases hr : r.isEmpty
        · simp [normalize_rows, hr, ih]
        · simp [normalize_rows, hr, ih]
  · intro hk
    unfold normalizeRow
    by_cases hc : (!((rowGet row "Contractors").getD Value.vnull).isNull &&
        !isPyScalar ((rowGet row "Contractors").getD Value.vnull)) = true
    · rw [if_pos hc]
      exact rowGet_rowSet_ne row k "Contractors" _ (Ne.symm hk)
    · rw [if_neg hc]
  · intro v hv
    unfold normalizeRow at hv
    by_cases hc : (!((rowGet row "Contractors").getD Value.vnull).isNull &&
        !isPyScalar ((rowGet row "Contractors").getD Value.vnull)) = true
    · rw [if_pos hc, rowGet_rowSet_self] at hv
      cases hv
      left; rfl
    · rw [if_neg hc] at hv
      simp only [Bool.and_eq_true, Bool.not_eq_true', not_and_or] at hc
      rw [hv] at hc
      simp only [Option.getD_some] at hc
      rcases hc with h1 | h1
      · right; simpa using h1
      · left; simpa using h1

/-- Counterexample to claim C5 as stated: a record whose non-scalar value
sits in a field other than `Contractors` passes through `normalize_rows`
unchanged, so the output record still holds a non-scalar field. -/
theorem C5_counterexample :
    allScalarRows (normalize_rows [[("Other", Value.vlist [Value.vnull])]]) = false := by
  rfl

/-- Witness for C5 (amended) at a concrete record and field. -/
theorem C5_normalize_amended_witness :
    rowGet (normalizeRow [("X", Value.vint 1)]) "X" = rowGet [("X", Value.vint 1)] "X" :=
  (C5_normalize_amended [] [("X", Value.vint 1)] "X").2.1 (by decide)

/-! ### The filtered-count default (claim C6) -/

/-- Claim C6 (amended): the planning count equals `recordsFiltered` whenever
that field is present and non-zero, and falls back to the (defaulted)
`recordsTotal` when `recordsFiltered` is absent, null or zero. -/
theorem C6_recordsFiltered_amended (r : Response) (v : Nat) :
    (r.recordsFiltered = some v → v ≠ 0 → recordsFilteredOf r = v) ∧
    ((r.recordsFiltered = none ∨ r.recordsFiltered = some 0) →
      recordsFilteredOf r = recordsTotalOf r) := by
  constructor
  · intro h hv
    simp [recordsFilteredOf, h, hv]
  · rintro (h | h) <;> simp [recordsFilteredOf, h]

/-- Counterexample to claim C6 as stated: with `recordsFiltered` present but
zero and `recordsTotal = 7`, the code plans with `7`, not with the present
value `0` — the default also fires on a present-but-falsy field. -/
theorem C6_counterexample :
    (Response.mk (some 7) (some 0) []).recordsFiltered = some 0 ∧
    recordsFilteredOf (Response.mk (some 7) (some 0) []) = 7 ∧ (7 : Nat) ≠ 0 :=
  ⟨rfl, rfl, by decide⟩

/-- Witness for C6 (amended) at a present, non-zero `recordsFiltered`. -/
theorem C6_recordsFiltered_amended_witness :
    recordsFilteredOf (Response.mk (some 5) (some 3) []) = 3 :=
  (C6_recordsFiltered_amended (Response.mk (some 5) (some 3) []) 3).1 rfl (by decide)

/-! ### Retry loops (claims C3, C4) -/

/-- Every retried fetch makes at least one attempt. -/
theorem loopPageRetryAux_attempts_pos {E : Type} (f : Nat → Except E Response)
    (g : Nat → Bool) : ∀ r a, 1 ≤ (loopPageRetryAux f g a r).attemptsMade := by
  intro r
  induction r with
  | zero => intro a; cases h : f a <;> simp [loopPageRetryAux, h]
  | succ r ih => intro a; cases h : f a <;> simp [loopPageRetryAux, h]

/-- In the subsequent-page retry loop, exactly one session refresh is
attempted per failed attempt that still has budget left: one fewer than the
number of attempts made. -/
theorem loopPageRetryAux_refresh_count {E : Type} (f : Nat → Except E Response)
    (g : Nat → Bool) : ∀ r a,
    (loopPageRetryAux f g a r).refreshResults.length =
      (loopPageRetryAux f g a r).attemptsMade - 1 := by
  intro r
  induction r with
  | zero => intro a; cases h : f a <;> simp [loopPageRetryAux, h]
  | succ r ih =>
      intro a
      cases h : f a with
      | ok resp => simp [loopPageRetryAux, h]
      | error e =>
          simp only [loopPageRetryAux, h, List.length_cons]
          rw [ih (a + 1)]
          have := loopPageRetryAux_attempts_pos f g r (a + 1)
          omega

/-- The refresh outcomes never influence the attempt count, the sleeps or the
final result of the subsequent-page retry loop (a refresh failure is only
logged; it consumes none of the attempt budget). -/
theorem loopPageRetryAux_refresh_irrelevant {E : Type} (f : Nat → Except E Response)
    (g g2 : Nat → Bool) : ∀ r a,
    (loopPageRetryAux f g a r).attemptsMade = (loopPageRetryAux f g2 a r).attemptsMade ∧
    (loopPageRetryAux f g a r).sleeps = (loopPageRetryAux f g2 a r).sleeps ∧
    (loopPageRetryAux f g a r).result = (loopPageRetryAux f g2 a r).result := by
  intro r
  induction r with
  | zero => intro a; cases h : f a <;> simp [loopPageRetryAux, h]
  | succ r ih =>
      intro a
      cases h : f a with
      | ok resp => simp [loopPageRetryAux, h]
      | error e =>
          obtain ⟨h1, h2, h3⟩ := ih (a + 1)
          simp [loopPageRetryAux, h, h1, h2, h3]

/-- The first-page retry loop never attempts a session refresh. -/
theorem firstPageRetryAux_no_refresh {E : Type} (f : Nat → Except E Response) :
    ∀ r a, (firstPageRetryAux f a r).refreshResults = [] := by
  intro r
  induction r with
  | zero => intro a; cases h : f a <;> simp [firstPageRetryAux, h]
  | succ r ih => intro a; cases h : f a <;> simp [firstPageRetryAux, h, ih]

/-- Claim C3: when every attempt fails, both the first-page fetch and a
subsequent-page fetch make exactly `MAX_RETRIES` attempts and re-raise the
last attempt's error, sleeping `RETRY_BACKOFF ^ (k - 1)` (exponents
`0, 1, 2`) between attempt `k` and attempt `k + 1`. -/
theorem C3_retry_exhaustion {E : Type} (f : Nat → Except E Response)
    (g : Nat → Bool) (e1 e2 e3 e4 : E)
    (h1 : f 1 = .error e1) (h2 : f 2 = .error e2)
    (h3 : f 3 = .error e3) (h4 : f 4 = .error e4) :
    firstPageRetry f = ⟨MAX_RETRIES, [0, 1, 2], [], .error e4⟩ ∧
    loopPageRetry f g = ⟨MAX_RETRIES, [0, 1, 2], [g 1, g 2, g 3], .error e4⟩ ∧
    [0, 1, 2].map backoffDelay =
      [RETRY_BACKOFF ^ (1 - 1), RETRY_BACKOFF ^ (2 - 1), RETRY_BACKOFF ^ (3 - 1)] := by
  refine ⟨?_, ?_, rfl⟩
  · simp [firstPageRetry, firstPageRetryAux, MAX_RETRIES, h1, h2, h3, h4]
  · simp [loopPageRetry, loopPageRetryAux, MAX_RETRIES, h1, h2, h3, h4]

/-- Witness for C3: a schedule failing on every attempt. -/
theorem C3_retry_exhaustion_witness :
    firstPageRetry (fun _ => (.error 0 : Except Nat Response)) =
      ⟨MAX_RETRIES, [0, 1, 2], [], .error 0⟩ ∧
    loopPageRetry (fun _ => (.error 0 : Except Nat Response)) (fun _ => true) =
      ⟨MAX_RETRIES, [0, 1, 2], [true, true, true], .error 0⟩ := by
  have h := C3_retry_exhaustion (fun _ => (.error 0 : Except Nat Response))
    (fun _ => true) 0 0 0 0 rfl rfl rfl rfl
  exact ⟨h.1, h.2.1⟩

/-- Claim C4 (amended): in the subsequent-page retry loop each failed attempt
with budget left triggers exactly one session refresh, whose own failure is
merely logged and consumes none of the attempt budget; a page failing twice
then succeeding under the budget of 4 makes 3 attempts, 2 refresh attempts
and raises no fatal error.  The first-page retry loop, by contrast, never
refreshes the session. -/
theorem C4_refresh_amended {E : Type} :
    (∀ (f : Nat → Except E Response) (g : Nat → Bool) (e1 e2 : E) (resp : Response),
      f 1 = .error e1 → f 2 = .error e2 → f 3 = .ok resp →
      loopPageRetry f g = ⟨3, [0, 1], [g 1, g 2], .ok resp⟩) ∧
    (∀ (f : Nat → Except E Response) (g : Nat → Bool),
      (loopPageRetry f g).refreshResults.length = (loopPageRetry f g).attemptsMade - 1) ∧
    (∀ (f : Nat → Except E Response) (g g2 : Nat → Bool),
      (loopPageRetry f g).attemptsMade = (loopPageRetry f g2).attemptsMade ∧
      (loopPageRetry f g).sleeps = (loopPageRetry f g2).sleeps ∧
      (loopPageRetry f g).result = (loopPageRetry f g2).result) ∧
    (∀ f : Nat → Except E Response, (firstPageRetry f).refreshResults = []) := by
  refine ⟨?_, ?_, ?_, ?_⟩
  · intro f g e1 e2 resp h1 h2 h3
    simp [loopPageRetry, loopPageRetryAux, MAX_RETRIES, h1, h2, h3]
  · intro f g
    exact loopPageRetryAux_refresh_count f g (MAX_RETRIES - 1) 1
  · intro f g g2
    exact loopPageRetryAux_refresh_irrelevant f g g2 (MAX_RETRIES - 1) 1
  · intro f
    exact firstPageRetryAux_no_refresh f (MAX_RETRIES - 1) 1

/-- The attempt schedule that fails twice, then succeeds. -/
def exFailTwice : Nat → Except Unit Response :=
  fun k => if k ≤ 2 then .error () else .ok (Response.mk none none [])

/-- Counterexample to claim C4 as stated: the first-page fetch is a page-fetch
operation of the run (source lines 196-204), yet after two failed attempts
with budget left it has performed 0 session refreshes, not the 2 the claim
requires. -/
theorem C4_counterexample :
    (firstPageRetry exFailTwice).attemptsMade = 3 ∧
    (firstPageRetry exFailTwice).refreshResults.length = 0 ∧ (0 : Nat) ≠ 2 :=
  ⟨rfl, rfl, by decide⟩

/-- Witness for C4 (amended): a subsequent page failing twice then succeeding
performs exactly 2 refresh attempts and succeeds. -/
theorem C4_refresh_amended_witness :
    loopPageRetry exFailTwice (fun _ => false) =
      ⟨3, [0, 1], [false, false], .ok (Response.mk none none [])⟩ :=
  C4_refresh_amended.1 exFailTwice (fun _ => false) () () (Response.mk none none [])
    rfl rfl rfl

/-! ### Pagination lemmas (claims C1, C2, C7, C8, C9) -/

/-- The exact natural ceiling used in the embedding agrees with the
mathematical ceiling of the rational quotient, as computed by `math.ceil`. -/
theorem add_pred_div_eq_ceil (F L : Nat) (hL : 0 < L) :
    (F + L - 1) / L = Nat.ceil ((F : ℚ) / (L : ℚ)) := by
  have hLq : (0 : ℚ) < (L : ℚ) := by exact_mod_cast hL
  apply le_antisymm
  · have hc : (F : ℚ) / (L : ℚ) ≤ (Nat.ceil ((F : ℚ) / (L : ℚ)) : ℚ) := Nat.le_ceil _
    have hFc : F ≤ Nat.ceil ((F : ℚ) / (L : ℚ)) * L := by
      have := (div_le_iff₀ hLq).mp hc
      exact_mod_cast this
    have h1 : F + L - 1 ≤ (L - 1) + Nat.ceil ((F : ℚ) / (L : ℚ)) * L := by omega
    calc (F + L - 1) / L ≤ ((L - 1) + Nat.ceil ((F : ℚ) / (L : ℚ)) * L) / L :=
          Nat.div_le_div_right h1
      _ = (L - 1) / L + Nat.ceil ((F : ℚ) / (L : ℚ)) := Nat.add_mul_div_right _ _ hL
      _ = Nat.ceil ((F : ℚ) / (L : ℚ)) := by rw [Nat.div_eq_of_lt (by omega), Nat.zero_add]
  · rw [Nat.ceil_le, div_le_iff₀ hLq]
    have hdm := Nat.div_add_mod (F + L - 1) L
    have hmod : (F + L - 1) % L < L := Nat.mod_lt _ hL
    have hF : F ≤ L * ((F + L - 1) / L) := by omega
    rw [Nat.mul_comm] at hF
    exact_mod_cast hF

/-- The `(draw, start)` payload parameters of page `idx`. -/
def pagePair (L idx : Nat) : Nat × Nat := (idx + 1, idx * L)

/-- The run state after successfully processing page `idx` with response
`resp`: request recorded, rows normalized and appended, keys observed, raw
row count recorded. -/
def stAfter (L : Nat) (st : RunState) (idx : Nat) (resp : Response) : RunState :=
  { rows := st.rows ++ normalize_rows resp.data
    observedKeys := addKeys st.observedKeys (normalize_rows resp.data)
    requests := st.requests ++ [pagePair L idx]
    pageRowCounts := st.pageRowCounts ++ [resp.data.length] }

/-- Step equation: a page whose retries are exhausted aborts the loop. -/
theorem pageLoopAux_cons_error {E : Type} (L : Nat) (fetch : Nat → Nat → Except E Response)
    (g : Nat → Nat → Bool) (idx : Nat) (rest : List Nat) (st : RunState) (e : E)
    (h : loopRespOf fetch g idx = .error e) :
    pageLoopAux L fetch g (idx :: rest) st =
      ({ st with requests := st.requests ++ [pagePair L idx] }, some e) := by
  simp [pageLoopAux, h, pagePair]

/-- Step equation: a short page ends the loop after being accumulated. -/
theorem pageLoopAux_cons_short {E : Type} (L : Nat) (fetch : Nat → Nat → Except E Response)
    (g : Nat → Nat → Bool) (idx : Nat) (rest : List Nat) (st : RunState) (resp : Response)
    (h : loopRespOf fetch g idx = .ok resp) (hs : resp.data.length < L) :
    pageLoopAux L fetch g (idx :: rest) st = (stAfter L st idx resp, none) := by
  simp [pageLoopAux, h, hs, stAfter, pagePair]

/-- Step equation: a full page is accumulated and the loop continues. -/
theorem pageLoopAux_cons_long {E : Type} (L : Nat) (fetch : Nat → Nat → Except E Response)
    (g : Nat → Nat → Bool) (idx : Nat) (rest : List Nat) (st : RunState) (resp : Response)
    (h : loopRespOf fetch g idx = .ok resp) (hs : ¬ resp.data.length < L) :
    pageLoopAux L fetch g (idx :: rest) st = pageLoopAux L fetch g rest (stAfter L st idx resp) := by
  simp [pageLoopAux, h, hs, stAfter, pagePair]

/-- The page loop issues the requests of a consecutive prefix of its page
indices, in order. -/
theorem pageLoopAux_requests {E : Type} (L : Nat) (fetch : Nat → Nat → Except E Response)
    (g : Nat → Nat → Bool) : ∀ (n a : Nat) (st : RunState),
    ∃ k, k ≤ n ∧ (pageLoopAux L fetch g (List.range' a n) st).1.requests =
      st.requests ++ (List.range' a k).map (pagePair L) := by
  intro n
  induction n with
  | zero => intro a st; exact ⟨0, le_rfl, by simp [pageLoopAux]⟩
  | succ n ih =>
      intro a st
      rw [List.range'_succ]
      cases hresp : loopRespOf fetch g a with
      | error e =>
          rw [pageLoopAux_cons_error L fetch g a _ st e hresp]
          exact ⟨1, by omega, by simp [List.range'_succ]⟩
      | ok resp =>
          by_cases hshort : resp.data.length < L
          · rw [pageLoopAux_cons_short L fetch g a _ st resp hresp hshort]
            exact ⟨1, by omega, by simp [List.range'_succ, stAfter]⟩
          · rw [pageLoopAux_cons_long L fetch g a _ st resp hresp hshort]
            obtain ⟨k, hk, hreq⟩ := ih (a + 1) (stAfter L st a resp)
            refine ⟨k + 1, by omega, ?_⟩
            rw [hreq]
            simp [stAfter, List.range'_succ, List.append_assoc]

/-- The page loop only appends to the accumulated requests, row counts and
rows; and when it contributes no rows it observes no new keys. -/
theorem pageLoopAux_extends {E : Type} (L : Nat) (fetch : Nat → Nat → Except E Response)
    (g : Nat → Nat → Bool) : ∀ (idxs : List Nat) (st : RunState),
    ∃ reqE cntE rowE,
      (pageLoopAux L fetch g idxs st).1.requests = st.requests ++ reqE ∧
      (pageLoopAux L fetch g idxs st).1.pageRowCounts = st.pageRowCounts ++ cntE ∧
      (pageLoopAux L fetch g idxs st).1.rows = st.rows ++ rowE ∧
      (rowE = [] → (pageLoopAux L fetch g idxs st).1.observedKeys = st.observedKeys) := by
  intro idxs
  induction idxs with
  | nil => intro st; exact ⟨[], [], [], by simp [pageLoopAux], by simp [pageLoopAux],
      by simp [pageLoopAux], fun _ => by simp [pageLoopAux]⟩
  | cons idx rest ih =>
      intro st
      cases hresp : loopRespOf fetch g idx with
      | error e =>
          rw [pageLoopAux_cons_error L fetch g idx rest st e hresp]
          exact ⟨[pagePair L idx], [], [], by simp, by simp, by simp, fun _ => by simp⟩
      | ok resp =>
          by_cases hshort : resp.data.length < L
          · rw [pageLoopAux_cons_short L fetch g idx rest st resp hresp hshort]
            refine ⟨[pagePair L idx], [resp.data.length], normalize_rows resp.data,
              by simp [stAfter], by simp [stAfter], by simp [stAfter], ?_⟩
            intro hnil
            simp [stAfter, hnil, addKeys]
          · rw [pageLoopAux_cons_long L fetch g idx rest st resp hresp hshort]
            obtain ⟨reqE, cntE, rowE, h1, h2, h3, h4⟩ := ih (stAfter L st idx resp)
            refine ⟨[pagePair L idx] ++ reqE, [resp.data.length] ++ cntE,
              normalize_rows resp.data ++ rowE, ?_, ?_, ?_, ?_⟩
            · rw [h1]; simp [stAfter]
            · rw [h2]; simp [stAfter]
            · rw [h3]; simp [stAfter]
            · intro hnil
              obtain ⟨hnr, hrowE⟩ := List.append_eq_nil.mp hnil
              rw [h4 hrowE]
              simp [stAfter, hnr, addKeys]

/-- Any short page recorded by the loop beyond the initial state is the final
page of the run: the loop records no further request or count after it, and
ends without error. -/
theorem pageLoopAux_short_stops {E : Type} (L : Nat) (fetch : Nat → Nat → Except E Response)
    (g : Nat → Nat → Bool) : ∀ (idxs : List Nat) (st : RunState),
    st.requests.length = st.pageRowCounts.length →
    ∀ i c, ((pageLoopAux L fetch g idxs st).1.pageRowCounts)[i]? = some c →
      st.pageRowCounts.length ≤ i → c < L →
      (pageLoopAux L fetch g idxs st).1.pageRowCounts.length = i + 1 ∧
      (pageLoopAux L fetch g idxs st).1.requests.length = i + 1 ∧
      (pageLoopAux L fetch g idxs st).2 = none := by
  intro idxs
  induction idxs with
  | nil =>
      intro st _ i c hget hi _
      exfalso
      simp only [pageLoopAux] at hget
      have := (List.getElem?_eq_some.mp hget).1
      omega
  | cons idx rest ih =>
      intro st hinv i c hget hi hc
      cases hresp : loopRespOf fetch g idx with
      | error e =>
          rw [pageLoopAux_cons_error L fetch g idx rest st e hresp] at hget
          exfalso
          simp only at hget
          have := (List.getElem?_eq_some.mp hget).1
          omega
      | ok resp =>
          by_cases hshort : resp.data.length < L
          · rw [pageLoopAux_cons_short L fetch g idx rest st resp hresp hshort] at hget ⊢
            have hb := (List.getElem?_eq_some.mp hget).1
            simp only [stAfter, List.length_append, List.length_cons,
              List.length_nil] at hb ⊢
            refine ⟨by omega, by omega, by trivial⟩
          · rw [pageLoopAux_cons_long L fetch g idx rest st resp hresp hshort] at hget ⊢
            by_cases hieq : i = st.pageRowCounts.length
            · exfalso
              obtain ⟨reqE, cntE, rowE, h1, h2, h3, h4⟩ :=
                pageLoopAux_extends L fetch g rest (stAfter L st idx resp)
              rw [h2] at hget
              simp only [stAfter] at hget
              have hlt : i < (st.pageRowCounts ++ [resp.data.length]).length := by
                simp; omega
              rw [List.getElem?_append, if_pos hlt, hieq,
                List.getElem?_concat_length] at hget
              injection hget with hcl
              omega
            · have hi2 : (stAfter L st idx resp).pageRowCounts.length ≤ i := by
                simp [stAfter]; omega
              have hinv2 : (stAfter L st idx resp).requests.length =
                  (stAfter L st idx resp).pageRowCounts.length := by
                simp [stAfter]; omega
              obtain ⟨ha, hb, hcc⟩ := ih (stAfter L st idx resp) hinv2 i c hget hi2 hc
              refine ⟨ha, ?_, hcc⟩
              rw [hb]

/-- When the loop ends without error while no page strictly before its last
scheduled index is short, every scheduled page was requested. -/
theorem pageLoopAux_complete {E : Type} (L : Nat) (fetch : Nat → Nat → Except E Response)
    (g : Nat → Nat → Bool) : ∀ (idxs : List Nat) (st : RunState),
    (pageLoopAux L fetch g idxs st).2 = none →
    (∀ idx ∈ idxs.dropLast, pageShortB L fetch g idx = false) →
    (pageLoopAux L fetch g idxs st).1.requests.length = st.requests.length + idxs.length := by
  intro idxs
  induction idxs with
  | nil => intro st _ _; simp [pageLoopAux]
  | cons idx rest ih =>
      intro st hnone hns
      cases hresp : loopRespOf fetch g idx with
      | error e =>
          rw [pageLoopAux_cons_error L fetch g idx rest st e hresp] at hnone
          cases hnone
      | ok resp =>
          by_cases hshort : resp.data.length < L
          · cases rest with
            | nil =>
                rw [pageLoopAux_cons_short L fetch g idx [] st resp hresp hshort]
                simp [stAfter]
            | cons b bs =>
                exfalso
                have hidx : idx ∈ (idx :: b :: bs).dropLast := by
                  rw [List.dropLast_cons₂]
                  exact List.mem_cons_self ..
                have hfalse := hns idx hidx
                simp [pageShortB, hresp] at hfalse
                omega
          · rw [pageLoopAux_cons_long L fetch g idx rest st resp hresp hshort] at hnone ⊢
            have hns2 : ∀ j ∈ rest.dropLast, pageShortB L fetch g j = false := by
              intro j hj
              apply hns
              cases rest with
              | nil => cases hj
              | cons b bs =>
                  rw [List.dropLast_cons₂]
                  exact List.mem_cons_of_mem _ hj
            rw [ih (stAfter L st idx resp) hnone hns2]
            simp only [stAfter, List.length_append, List.length_cons, List.length_nil]
            omega

/-- When some page strictly before the last scheduled index is short, the
loop issues strictly fewer requests than scheduled. -/
theorem pageLoopAux_short_fewer {E : Type} (L : Nat) (fetch : Nat → Nat → Except E Response)
    (g : Nat → Nat → Bool) : ∀ (idxs : List Nat) (st : RunState) (j jdx : Nat),
    j + 1 < idxs.length → idxs[j]? = some jdx → pageShortB L fetch g jdx = true →
    (pageLoopAux L fetch g idxs st).1.requests.length < st.requests.length + idxs.length := by
  intro idxs
  induction idxs with
  | nil => intro st j jdx hj _ _; simp at hj
  | cons idx rest ih =>
      intro st j jdx hj hget hs
      have hrest : 1 ≤ rest.length := by simp at hj; omega
      cases hresp : loopRespOf fetch g idx with
      | error e =>
          rw [pageLoopAux_cons_error L fetch g idx rest st e hresp]
          simp only [List.length_append, List.length_cons, List.length_nil]
          omega
      | ok resp =>
          by_cases hshort : resp.data.length < L
          · rw [pageLoopAux_cons_short L fetch g idx rest st resp hresp hshort]
            simp only [stAfter, List.length_append, List.length_cons, List.length_nil]
            omega
          · rw [pageLoopAux_cons_long L fetch g idx rest st resp hresp hshort]
            cases j with
            | zero =>
                exfalso
                have hjdx : jdx = idx := by
                  rw [List.getElem?_cons_zero] at hget
                  injection hget with h
                  exact h.symm
                rw [hjdx] at hs
                simp [pageShortB, hresp] at hs
                omega
            | succ j2 =>
                rw [List.getElem?_cons_succ] at hget
                have := ih (stAfter L st idx resp) j2 jdx (by simp at hj; omega) hget hs
                simp only [stAfter, List.length_append, List.length_cons,
                  List.length_nil] at this ⊢
                omega

/-- If the loop ever requested a page whose retried fetch cannot succeed,
the loop ended with an error. -/
theorem pageLoopAux_failing_page {E : Type} (L : Nat) (fetch : Nat → Nat → Except E Response)
    (g : Nat → Nat → Bool) : ∀ (idxs : List Nat) (st : RunState) (idx : Nat),
    pagePair L idx ∈ (pageLoopAux L fetch g idxs st).1.requests →
    pagePair L idx ∉ st.requests →
    (∀ r : Response, loopRespOf fetch g idx ≠ .ok r) →
    ((pageLoopAux L fetch g idxs st).2).isSome = true := by
  intro idxs
  induction idxs with
  | nil =>
      intro st idx hmem hnot _
      simp only [pageLoopAux] at hmem
      exact absurd hmem hnot
  | cons a rest ih =>
      intro st idx hmem hnot hfail
      cases hresp : loopRespOf fetch g a with
      | error e =>
          rw [pageLoopAux_cons_error L fetch g a rest st e hresp]
          rfl
      | ok resp =>
          have hne : idx ≠ a := fun h => hfail resp (h ▸ hresp)
          have hpair : pagePair L idx ≠ pagePair L a := by
            intro heq
            have := congrArg Prod.fst heq
            simp [pagePair] at this
            exact hne this
          by_cases hshort : resp.data.length < L
          · exfalso
            rw [pageLoopAux_cons_short L fetch g a rest st resp hresp hshort] at hmem
            simp only [stAfter] at hmem
            rcases List.mem_append.mp hmem with h | h
            · exact hnot h
            · rcases List.mem_singleton.mp h with h2
              exact hpair h2
          · rw [pageLoopAux_cons_long L fetch g a rest st resp hresp hshort] at hmem ⊢
            apply ih (stAfter L st a resp) idx hmem ?_ hfail
            simp only [stAfter]
            intro hmem2
            rcases List.mem_append.mp hmem2 with h | h
            · exact hnot h
            · exact hpair (List.mem_singleton.mp h)

/-- A loop that ends without error either requested every scheduled page or
ended at a short page (the end-of-data signal). -/
theorem pageLoopAux_finish {E : Type} (L : Nat) (fetch : Nat → Nat → Except E Response)
    (g : Nat → Nat → Bool) : ∀ (idxs : List Nat) (st : RunState),
    (pageLoopAux L fetch g idxs st).2 = none →
    (pageLoopAux L fetch g idxs st).1.requests.length = st.requests.length + idxs.length ∨
    ∃ c, (pageLoopAux L fetch g idxs st).1.pageRowCounts.getLast? = some c ∧ c < L := by
  intro idxs
  induction idxs with
  | nil => intro st _; left; simp [pageLoopAux]
  | cons idx rest ih =>
      intro st hnone
      cases hresp : loopRespOf fetch g idx with
      | error e =>
          rw [pageLoopAux_cons_error L fetch g idx rest st e hresp] at hnone
          cases hnone
      | ok resp =>
          by_cases hshort : resp.data.length < L
          · right
            rw [pageLoopAux_cons_short L fetch g idx rest st resp hresp hshort]
            exact ⟨resp.data.length, by simp [stAfter], hshort⟩
          · rw [pageLoopAux_cons_long L fetch g idx rest st resp hresp hshort] at hnone ⊢
            rcases ih (stAfter L st idx resp) hnone with h | h
            · left
              rw [h]
              simp only [stAfter, List.length_append, List.length_cons, List.length_nil]
              omega
            · right
              exact h

/-- The requests of a whole run always form a consecutive prefix
`(1, 0), (2, L), (3, 2L), ...` of the page-payload sequence. -/
theorem runT_requests_shape {E : Type} (L : Nat) (fetch : Nat → Nat → Except E Response)
    (g : Nat → Nat → Bool) :
    ∃ K, 1 ≤ K ∧ (runT L fetch g).requests = (List.range' 0 K).map (pagePair L) := by
  cases h0 : (firstPageRetry (fetch 0)).result with
  | error e =>
      refine ⟨1, le_rfl, ?_⟩
      simp [runT, h0, pagePair]
  | ok resp0 =>
      have hreq : (runT L fetch g).requests =
          (pageLoopAux L fetch g
            (List.range' 1 (totalPagesOf (recordsFilteredOf resp0) L - 1))
            (st0Of resp0)).1.requests := by
        simp only [runT, h0]
        rfl
      obtain ⟨k, hk, hpl⟩ := pageLoopAux_requests L fetch g
        (totalPagesOf (recordsFilteredOf resp0) L - 1) 1 (st0Of resp0)
      refine ⟨k + 1, by omega, ?_⟩
      rw [hreq, hpl, List.range'_succ]
      simp [st0Of, pagePair]

/-- Claim C9: the i-th page request of a run carries `draw = i + 1` and
`start = i * L`; hence draw values and start offsets are strictly increasing
across the run. -/
theorem C9_draw_start {E : Type} (L : Nat) (fetch : Nat → Nat → Except E Response)
    (g : Nat → Nat → Bool) (hL : 0 < L) :
    (∀ i, ∀ h : i < (runT L fetch g).requests.length,
      (runT L fetch g).requests.get ⟨i, h⟩ = (i + 1, i * L)) ∧
    (∀ i j, ∀ hi : i < (runT L fetch g).requests.length,
      ∀ hj : j < (runT L fetch g).requests.length, i < j →
      ((runT L fetch g).requests.get ⟨i, hi⟩).1 < ((runT L fetch g).requests.get ⟨j, hj⟩).1 ∧
      ((runT L fetch g).requests.get ⟨i, hi⟩).2 < ((runT L fetch g).requests.get ⟨j, hj⟩).2) := by
  obtain ⟨K, hK, hshape⟩ := runT_requests_shape L fetch g
  have hget : ∀ i, ∀ h : i < (runT L fetch g).requests.length,
      (runT L fetch g).requests.get ⟨i, h⟩ = (i + 1, i * L) := by
    intro i h
    rw [List.get_eq_getElem]
    simp only [hshape, List.getElem_map, List.getElem_range'_1, Nat.zero_add, pagePair]
  refine ⟨hget, ?_⟩
  intro i j hi hj hij
  rw [hget i hi, hget j hj]
  exact ⟨by omega, Nat.mul_lt_mul_of_pos_right hij hL⟩

/-- A record used by the concrete runs below. -/
def exRowA : Row := [("A", Value.vnull)]

/-- A refresh-outcome schedule used by the concrete runs below. -/
def exG : Nat → Nat → Bool := fun _ _ => true

/-- Fetch schedule for the C9 witness: every page succeeds with 2 rows. -/
def exFetch9 : Nat → Nat → Except Unit Response :=
  fun _ _ => .ok (Response.mk (some 4) (some 4) [exRowA, exRowA])

/-- Witness for C9: in a concrete 2-page run, the second request carries
`draw = 2` and `start = L = 2`. -/
theorem C9_draw_start_witness :
    (runT 2 exFetch9 exG).requests.get ⟨1, by decide⟩ = (2, 2) := by
  have h := (C9_draw_start 2 exFetch9 exG (by decide)).1 1 (by decide)
  simpa using h

/-- Fetch schedule for the C1 counterexample: the first page reports
`recordsFiltered = 4` but returns a single row; the next page returns 2. -/
def exFetchC1 : Nat → Nat → Except Unit Response :=
  fun page _ =>
    if page = 0 then .ok (Response.mk (some 4) (some 4) [exRowA])
    else .ok (Response.mk none none [exRowA, exRowA])

/-- Counterexample to claim C1 as stated: with `L = 2`, page 0 returns only
1 row (`< L`), yet — because `totalPages = 2` — the run still issues a second
page request.  The short-page short-circuit does not cover page 0. -/
theorem C1_counterexample :
    (runT 2 exFetchC1 exG).pageRowCounts[0]? = some 1 ∧ (1 : Nat) < 2 ∧
    (runT 2 exFetchC1 exG).requests.length = 2 :=
  ⟨by decide, by decide, by decide⟩

/-- Claim C1 (amended): any page fetched in the subsequent-page loop (page
index ≥ 1) whose response holds fewer than `L` rows terminates the loop: its
request is the run's last, and the run ends without error.  (The first page
does not short-circuit; only `totalPages` governs whether page 1 is
requested.) -/
theorem C1_short_loop_page_stops {E : Type} (L : Nat)
    (fetch : Nat → Nat → Except E Response) (g : Nat → Nat → Bool) :
    ∀ i c, 1 ≤ i → (runT L fetch g).pageRowCounts[i]? = some c → c < L →
      (runT L fetch g).requests.length = i + 1 ∧
      (runT L fetch g).pageRowCounts.length = i + 1 ∧
      (runT L fetch g).error = none := by
  intro i c hi hget hc
  cases h0 : (firstPageRetry (fetch 0)).result with
  | error e =>
      exfalso
      have hempty : (runT L fetch g).pageRowCounts = [] := by simp [runT, h0]
      rw [hempty] at hget
      simp at hget
  | ok resp0 =>
      have hcounts : (runT L fetch g).pageRowCounts =
          (pageLoopAux L fetch g
            (List.range' 1 (totalPagesOf (recordsFilteredOf resp0) L - 1))
            (st0Of resp0)).1.pageRowCounts := by
        simp only [runT, h0]; rfl
      have hreqeq : (runT L fetch g).requests =
          (pageLoopAux L fetch g
            (List.range' 1 (totalPagesOf (recordsFilteredOf resp0) L - 1))
            (st0Of resp0)).1.requests := by
        simp only [runT, h0]; rfl
      have herr : (runT L fetch g).error =
          (pageLoopAux L fetch g
            (List.range' 1 (totalPagesOf (recordsFilteredOf resp0) L - 1))
            (st0Of resp0)).2 := by
        simp only [runT, h0]; rfl
      rw [hcounts] at hget
      have hinv : (st0Of resp0).requests.length = (st0Of resp0).pageRowCounts.length := by
        simp [st0Of]
      have hi0 : (st0Of resp0).pageRowCounts.length ≤ i := by
        simp [st0Of]; omega
      obtain ⟨ha, hb, hcc⟩ := pageLoopAux_short_stops L fetch g _ (st0Of resp0)
        hinv i c hget hi0 hc
      refine ⟨?_, ?_, ?_⟩
      · rw [hreqeq]; exact hb
      · rw [hcounts]; exact ha
      · rw [herr]; exact hcc

/-- Fetch schedule for the C1 witness: page 0 full, page 1 short. -/
def exFetchC1W : Nat → Nat → Except Unit Response :=
  fun page _ =>
    if page = 0 then .ok (Response.mk (some 4) (some 4) [exRowA, exRowA])
    else .ok (Response.mk none none [exRowA])

/-- Witness for C1 (amended): with `L = 2` and page 1 returning a single row,
the run stops after the second request without error. -/
theorem C1_short_loop_page_stops_witness :
    (runT 2 exFetchC1W exG).requests.length = 2 ∧
    (runT 2 exFetchC1W exG).pageRowCounts.length = 2 ∧
    (runT 2 exFetchC1W exG).error = none :=
  C1_short_loop_page_stops 2 exFetchC1W exG 1 1 (by decide) (by decide) (by decide)

/-- Positional form of `pageLoopAux_complete`: when the loop ends without
error and no scheduled page except possibly the last is short, every
scheduled page was requested. -/
theorem pageLoopAux_complete_pos {E : Type} (L : Nat) (fetch : Nat → Nat → Except E Response)
    (g : Nat → Nat → Bool) : ∀ (idxs : List Nat) (st : RunState),
    (pageLoopAux L fetch g idxs st).2 = none →
    (∀ j jdx, j + 1 < idxs.length → idxs[j]? = some jdx →
      pageShortB L fetch g jdx = false) →
    (pageLoopAux L fetch g idxs st).1.requests.length = st.requests.length + idxs.length := by
  intro idxs
  induction idxs with
  | nil => intro st _ _; simp [pageLoopAux]
  | cons idx rest ih =>
      intro st hnone hns
      cases hresp : loopRespOf fetch g idx with
      | error e =>
          rw [pageLoopAux_cons_error L fetch g idx rest st e hresp] at hnone
          cases hnone
      | ok resp =>
          by_cases hshort : resp.data.length < L
          · cases rest with
            | nil =>
                rw [pageLoopAux_cons_short L fetch g idx [] st resp hresp hshort]
                simp [stAfter]
            | cons b bs =>
                exfalso
                have h := hns 0 idx (by simp only [List.length_cons]; omega) rfl
                simp [pageShortB, hresp] at h
                omega
          · rw [pageLoopAux_cons_long L fetch g idx rest st resp hresp hshort] at hnone ⊢
            have hns2 : ∀ j jdx, j + 1 < rest.length → rest[j]? = some jdx →
                pageShortB L fetch g jdx = false := by
              intro j jdx hj hget
              exact hns (j + 1) jdx (by simp only [List.length_cons]; omega)
                (by simpa using hget)
            rw [ih (stAfter L st idx resp) hnone hns2]
            simp only [stAfter, List.length_append, List.length_cons, List.length_nil]
            omega

/-- Claim C2 (amended): the planned page count is
`max(1, ceil(F / L))` (both as exact natural arithmetic and as the ceiling of
the rational quotient); an error-free run in which no loop page other than
the last planned one is short issues exactly `totalPages` requests; and an
error-free run in which some loop page before the last planned one is short
issues strictly fewer.  (A short *first* page does not reduce the request
count — see the counterexample.) -/
theorem C2_total_pages_amended {E : Type} (L : Nat)
    (fetch : Nat → Nat → Except E Response) (g : Nat → Nat → Bool) (hL : 0 < L)
    (hnoerr : (runT L fetch g).error = none) :
    (runT L fetch g).plannedPages =
      max 1 (((runT L fetch g).recordsFilteredUsed + L - 1) / L) ∧
    (runT L fetch g).plannedPages =
      max 1 (Nat.ceil (((runT L fetch g).recordsFilteredUsed : ℚ) / (L : ℚ))) ∧
    ((∀ idx, 1 ≤ idx → idx + 1 < (runT L fetch g).plannedPages →
        pageShortB L fetch g idx = false) →
      (runT L fetch g).requests.length = (runT L fetch g).plannedPages) ∧
    (∀ idx, 1 ≤ idx → idx + 1 < (runT L fetch g).plannedPages →
        pageShortB L fetch g idx = true →
      (runT L fetch g).requests.length < (runT L fetch g).plannedPages) := by
  cases h0 : (firstPageRetry (fetch 0)).result with
  | error e =>
      exfalso
      rw [show (runT L fetch g).error = some e by simp [runT, h0]] at hnoerr
      cases hnoerr
  | ok resp0 =>
      have hplan : (runT L fetch g).plannedPages =
          totalPagesOf (recordsFilteredOf resp0) L := by
        simp only [runT, h0]; rfl
      have hused : (runT L fetch g).recordsFilteredUsed = recordsFilteredOf resp0 := by
        simp only [runT, h0]; rfl
      have hreqeq : (runT L fetch g).requests =
          (pageLoopAux L fetch g
            (List.range' 1 (totalPagesOf (recordsFilteredOf resp0) L - 1))
            (st0Of resp0)).1.requests := by
        simp only [runT, h0]; rfl
      have herr : (runT L fetch g).error =
          (pageLoopAux L fetch g
            (List.range' 1 (totalPagesOf (recordsFilteredOf resp0) L - 1))
            (st0Of resp0)).2 := by
        simp only [runT, h0]; rfl
      have herr2 : (pageLoopAux L fetch g
          (List.range' 1 (totalPagesOf (recordsFilteredOf resp0) L - 1))
          (st0Of resp0)).2 = none := by
        rw [← herr]; exact hnoerr
      have htp1 : 1 ≤ totalPagesOf (recordsFilteredOf resp0) L := Nat.le_max_left 1 _
      refine ⟨?_, ?_, ?_, ?_⟩
      · rw [hplan, hused]; rfl
      · rw [hplan, hused]
        unfold totalPagesOf
        rw [add_pred_div_eq_ceil _ _ hL]
      · intro hns
        have hns2 : ∀ j jdx,
            j + 1 < (List.range' 1 (totalPagesOf (recordsFilteredOf resp0) L - 1)).length →
            (List.range' 1 (totalPagesOf (recordsFilteredOf resp0) L - 1))[j]? = some jdx →
            pageShortB L fetch g jdx = false := by
          intro j jdx hj hget
          rw [List.length_range'] at hj
          have hjdx : jdx = 1 + j := by
            rw [List.getElem?_eq_getElem (by rw [List.length_range']; omega),
              List.getElem_range'_1] at hget
            injection hget with h
            exact h.symm
          subst hjdx
          exact hns (1 + j) (by omega) (by rw [hplan]; omega)
        have hcomp := pageLoopAux_complete_pos L fetch g _ (st0Of resp0) herr2 hns2
        rw [hreqeq, hplan, hcomp]
        simp only [st0Of, List.length_range', List.length_cons, List.length_nil]
        omega
      · intro idx h1 h2 hshort
        rw [hplan] at h2
        have hgetj : (List.range' 1
            (totalPagesOf (recordsFilteredOf resp0) L - 1))[idx - 1]? = some idx := by
          rw [List.getElem?_eq_getElem (by rw [List.length_range']; omega),
            List.getElem_range'_1]
          congr 1
          omega
        have hf := pageLoopAux_short_fewer L fetch g _ (st0Of resp0) (idx - 1) idx
          (by rw [List.length_range']; omega) hgetj hshort
        rw [hreqeq, hplan]
        have hlen : (st0Of resp0).requests.length = 1 := rfl
        rw [hlen, List.length_range'] at hf
        omega

/-- Fetch schedule for the C2 counterexample: first page short (1 row) with
`recordsFiltered = 6`, both loop pages full. -/
def exFetchC2 : Nat → Nat → Except Unit Response :=
  fun page _ =>
    if page = 0 then .ok (Response.mk (some 6) (some 6) [exRowA])
    else .ok (Response.mk none none [exRowA, exRowA])

/-- Counterexample to claim C2 as stated: with `L = 2` and `F = 6`, an
earlier page (page 0) returns 1 row (`< L`), yet the run still issues
exactly `totalPages = 3` requests — not fewer. -/
theorem C2_counterexample :
    (runT 2 exFetchC2 exG).pageRowCounts[0]? = some 1 ∧ (1 : Nat) < 2 ∧
    (runT 2 exFetchC2 exG).plannedPages = 3 ∧
    (runT 2 exFetchC2 exG).requests.length = 3 :=
  ⟨by decide, by decide, by decide, by decide⟩

/-- Witness for C2 (amended): in the same concrete run, which has no short
loop page before the last planned one, the request count equals the planned
page count. -/
theorem C2_total_pages_amended_witness :
    (runT 2 exFetchC2 exG).requests.length = (runT 2 exFetchC2 exG).plannedPages :=
  (C2_total_pages_amended 2 exFetchC2 exG (by decide) (by decide)).2.2.1
    (fun idx h1 h2 => by
      have hidx : idx = 1 := by
        have h3 : (runT 2 exFetchC2 exG).plannedPages = 3 := by decide
        omega
      subst hidx
      decide)

/-- Claim C7: a run that accumulated zero rows and wrote a file wrote exactly
the sorted fallback schema — the request's known field names — which is
non-empty and is not the sentinel schema.  (In such a run no key was
observed, so the fallback always applies, and the sentinel column would be
used only if the fallback were empty too, which it is not.) -/
theorem C7_empty_dataset_columns {E : Type} (L : Nat)
    (fetch : Nat → Nat → Except E Response) (g : Nat → Nat → Bool) :
    ∀ cols, (runT L fetch g).written = some cols → (runT L fetch g).rows = [] →
      cols = sortStrings fallback_keys ∧ cols ≠ [] ∧ cols ≠ ["__empty__"] := by
  intro cols hw hrows
  have hcols : cols = sortStrings fallback_keys := by
    cases h0 : (firstPageRetry (fetch 0)).result with
    | error e =>
        exfalso
        rw [show (runT L fetch g).written = none by simp [runT, h0]] at hw
        cases hw
    | ok resp0 =>
        have hrowseq : (runT L fetch g).rows =
            (pageLoopAux L fetch g
              (List.range' 1 (totalPagesOf (recordsFilteredOf resp0) L - 1))
              (st0Of resp0)).1.rows := by
          simp only [runT, h0]; rfl
        have hweq : (runT L fetch g).written =
            (match (pageLoopAux L fetch g
                (List.range' 1 (totalPagesOf (recordsFilteredOf resp0) L - 1))
                (st0Of resp0)).2 with
              | some _ => none
              | none => some (if (pageLoopAux L fetch g
                    (List.range' 1 (totalPagesOf (recordsFilteredOf resp0) L - 1))
                    (st0Of resp0)).1.rows.isEmpty then
                  emptyColumns (pageLoopAux L fetch g
                    (List.range' 1 (totalPagesOf (recordsFilteredOf resp0) L - 1))
                    (st0Of resp0)).1.observedKeys fallback_keys
                else unionKeys (pageLoopAux L fetch g
                    (List.range' 1 (totalPagesOf (recordsFilteredOf resp0) L - 1))
                    (st0Of resp0)).1.rows)) := by
          simp only [runT, h0]; rfl
        rw [hrowseq] at hrows
        obtain ⟨reqE, cntE, rowE, h1, h2, h3, h4⟩ := pageLoopAux_extends L fetch g
          (List.range' 1 (totalPagesOf (recordsFilteredOf resp0) L - 1)) (st0Of resp0)
        have hsplit := List.append_eq_nil.mp (h3 ▸ hrows)
        have hnorm : normalize_rows resp0.data = [] := hsplit.1
        have hobs2 : (pageLoopAux L fetch g
            (List.range' 1 (totalPagesOf (recordsFilteredOf resp0) L - 1))
            (st0Of resp0)).1.observedKeys = [] := by
          rw [h4 hsplit.2]
          simp [st0Of, hnorm, addKeys]
        rw [hweq] at hw
        cases hres : (pageLoopAux L fetch g
            (List.range' 1 (totalPagesOf (recordsFilteredOf resp0) L - 1))
            (st0Of resp0)).2 with
        | some e => rw [hres] at hw; cases hw
        | none =>
            rw [hres] at hw
            injection hw with hw3
            rw [← hw3, if_pos (by rw [hrows]; rfl), hobs2]
            decide
  refine ⟨hcols, ?_, ?_⟩ <;> rw [hcols] <;> decide

/-- Fetch schedule for the C7 witness: the first page reports zero records
and returns no rows. -/
def exFetch7 : Nat → Nat → Except Unit Response :=
  fun _ _ => .ok (Response.mk (some 0) none [])

/-- Witness for C7: the zero-record run writes the sorted fallback schema. -/
theorem C7_empty_dataset_columns_witness :
    sortStrings fallback_keys = sortStrings fallback_keys ∧
    sortStrings fallback_keys ≠ [] ∧ sortStrings fallback_keys ≠ ["__empty__"] :=
  C7_empty_dataset_columns PAGE_LENGTH exFetch7 exG (sortStrings fallback_keys)
    (by decide) (by rfl)

/-- An attempt schedule that fails on every attempt makes both retry loops
re-raise an error. -/
theorem retry_all_fail_result {E : Type} (f : Nat → Except E Response) (g : Nat → Bool)
    (hf : ∀ k, 1 ≤ k → k ≤ MAX_RETRIES → ∃ e, f k = .error e) :
    (∃ e, (firstPageRetry f).result = .error e) ∧
    (∃ e, (loopPageRetry f g).result = .error e) := by
  obtain ⟨e1, h1⟩ := hf 1 (by decide) (by decide)
  obtain ⟨e2, h2⟩ := hf 2 (by decide) (by decide)
  obtain ⟨e3, h3⟩ := hf 3 (by decide) (by decide)
  obtain ⟨e4, h4⟩ := hf 4 (by decide) (by decide)
  refine ⟨⟨e4, ?_⟩, ⟨e4, ?_⟩⟩
  · simp [firstPageRetry, firstPageRetryAux, MAX_RETRIES, h1, h2, h3, h4]
  · simp [loopPageRetry, loopPageRetryAux, MAX_RETRIES, h1, h2, h3, h4]

/-- A run writes nothing whenever it errors, and errors nowhere whenever it
writes. -/
theorem runT_write_error_excl {E : Type} (L : Nat)
    (fetch : Nat → Nat → Except E Response) (g : Nat → Nat → Bool) :
    ((runT L fetch g).error.isSome = true → (runT L fetch g).written = none) ∧
    ((runT L fetch g).written.isSome = true → (runT L fetch g).error = none) := by
  cases h0 : (firstPageRetry (fetch 0)).result with
  | error e => constructor <;> simp [runT, h0]
  | ok resp0 =>
      constructor <;>
      · simp only [runT, h0, runTFromFirst]
        cases hres : (pageLoopAux L fetch g
            (List.range' 1 (totalPagesOf (recordsFilteredOf resp0) L - 1))
            (st0Of resp0)).2 <;> simp [hres]

/-- Claim C8: an exhausted page aborts the harvest and nothing is written —
(i) an errored run writes no file; (ii) a run that wrote a file had no error
and its loop finished (every planned page requested, or ended at a short
page, the end-of-data signal); (iii) a requested loop page whose every
attempt fails aborts the run with no file; (iv) a first page whose every
attempt fails aborts the run with no file. -/
theorem C8_abort_without_write {E : Type} (L : Nat)
    (fetch : Nat → Nat → Except E Response) (g : Nat → Nat → Bool) :
    ((runT L fetch g).error.isSome = true → (runT L fetch g).written = none) ∧
    ((runT L fetch g).written.isSome = true → (runT L fetch g).error = none ∧
      ((runT L fetch g).requests.length = (runT L fetch g).plannedPages ∨
       ∃ c, (runT L fetch g).pageRowCounts.getLast? = some c ∧ c < L)) ∧
    (∀ idx, 1 ≤ idx → pagePair L idx ∈ (runT L fetch g).requests →
      (∀ k, 1 ≤ k → k ≤ MAX_RETRIES → ∃ e, fetch idx k = .error e) →
      (runT L fetch g).error.isSome = true ∧ (runT L fetch g).written = none) ∧
    ((∀ k, 1 ≤ k → k ≤ MAX_RETRIES → ∃ e, fetch 0 k = .error e) →
      (runT L fetch g).error.isSome = true ∧ (runT L fetch g).written = none) := by
  refine ⟨(runT_write_error_excl L fetch g).1, ?_, ?_, ?_⟩
  · intro hw
    refine ⟨(runT_write_error_excl L fetch g).2 hw, ?_⟩
    cases h0 : (firstPageRetry (fetch 0)).result with
    | error e =>
        exfalso
        rw [show (runT L fetch g).written = none by simp [runT, h0]] at hw
        cases hw
    | ok resp0 =>
        have hreqeq : (runT L fetch g).requests =
            (pageLoopAux L fetch g
              (List.range' 1 (totalPagesOf (recordsFilteredOf resp0) L - 1))
              (st0Of resp0)).1.requests := by
          simp only [runT, h0]; rfl
        have hcnteq : (runT L fetch g).pageRowCounts =
            (pageLoopAux L fetch g
              (List.range' 1 (totalPagesOf (recordsFilteredOf resp0) L - 1))
              (st0Of resp0)).1.pageRowCounts := by
          simp only [runT, h0]; rfl
        have hplan : (runT L fetch g).plannedPages =
            totalPagesOf (recordsFilteredOf resp0) L := by
          simp only [runT, h0]; rfl
        have herr : (runT L fetch g).error =
            (pageLoopAux L fetch g
              (List.range' 1 (totalPagesOf (recordsFilteredOf resp0) L - 1))
              (st0Of resp0)).2 := by
          simp only [runT, h0]; rfl
        have herr2 : (pageLoopAux L fetch g
            (List.range' 1 (totalPagesOf (recordsFilteredOf resp0) L - 1))
            (st0Of resp0)).2 = none := by
          rw [← herr]
          exact (runT_write_error_excl L fetch g).2 hw
        rcases pageLoopAux_finish L fetch g _ (st0Of resp0) herr2 with h | h
        · left
          rw [hreqeq, hplan, h]
          have hlen : (st0Of resp0).requests.length = 1 := rfl
          rw [hlen, List.length_range']
          have htp1 : 1 ≤ totalPagesOf (recordsFilteredOf resp0) L := Nat.le_max_left 1 _
          omega
        · right
          rw [hcnteq]
          exact h
  · intro idx hidx hmem hfail
    cases h0 : (firstPageRetry (fetch 0)).result with
    | error e =>
        exact ⟨by simp [runT, h0], by simp [runT, h0]⟩
    | ok resp0 =>
        have hreqeq : (runT L fetch g).requests =
            (pageLoopAux L fetch g
              (List.range' 1 (totalPagesOf (recordsFilteredOf resp0) L - 1))
              (st0Of resp0)).1.requests := by
          simp only [runT, h0]; rfl
        have herr : (runT L fetch g).error =
            (pageLoopAux L fetch g
              (List.range' 1 (totalPagesOf (recordsFilteredOf resp0) L - 1))
              (st0Of resp0)).2 := by
          simp only [runT, h0]; rfl
        obtain ⟨e, he⟩ := (retry_all_fail_result (fetch idx) (g idx) hfail).2
        have hfail2 : ∀ r : Response, loopRespOf fetch g idx ≠ .ok r := by
          intro r hr
          rw [loopRespOf, he] at hr
          cases hr
        have hsome := pageLoopAux_failing_page L fetch g
          (List.range' 1 (totalPagesOf (recordsFilteredOf resp0) L - 1)) (st0Of resp0)
          idx (by rw [← hreqeq]; exact hmem) ?_ hfail2
        · refine ⟨by rw [herr]; exact hsome, (runT_write_error_excl L fetch g).1 (by rw [herr]; exact hsome)⟩
        · intro hmem0
          have : pagePair L idx = (1, 0) := List.mem_singleton.mp hmem0
          have := congrArg Prod.fst this
          simp [pagePair] at this
          omega
  · intro hfail
    obtain ⟨e, he⟩ := (retry_all_fail_result (fetch 0) (g 0) hfail).1
    exact ⟨by simp [runT, he], by simp [runT, he]⟩

/-- Fetch schedule for the C8 witness: the first page succeeds with 2 rows
and `recordsFiltered = 4`; page 1 fails on every attempt. -/
def exFetch8 : Nat → Nat → Except Unit Response :=
  fun page _ =>
    if page = 0 then .ok (Response.mk (some 4) (some 4) [exRowA, exRowA])
    else .error ()

/-- Witness for C8: the run whose page 1 persistently fails aborts with an
error and writes nothing. -/
theorem C8_abort_without_write_witness :
    (runT 2 exFetch8 exG).error.isSome = true ∧ (runT 2 exFetch8 exG).written = none :=
  (C8_abort_without_write 2 exFetch8 exG).2.2.1 1 (by decide) (by decide)
    (fun k _ _ => ⟨(), rfl⟩)
